import Mathlib

/-!
Verification of the roboarm tube-sorting orchestrator.

Shallow embedding of the repository's Python sources:
* `src/main.py` — `TestType`, `TubeInfo`, `TestMatrix.add_tube`, `parse_test_type`,
  `process_tube_async`, `scan_three_tubes_to_array`, `pickup_tube`, `place_tube`,
  `process_tubes_by_test_matrix`;
* `src/robot_controller.py` — `RobotController` state and its polling waits
  (`wait_for_pause_clear`, `wait_for_rack_replacement`, `check_pause`);
* `src/server.py` — the control-plane writes (`stop_program`, `pause_program`,
  `resume_program`).

State that the Python code mutates in place is passed explicitly; the shared
`robot_state.json` store read by every controller accessor is modelled by an
environment function `Nat → RunState → RunState` applied before each read,
representing whatever the external control plane wrote since the previous read.
-/

namespace Roboarm

/-- `TestType` enum from `src/main.py`. -/
inductive TestType where
  | UGI
  | VPCH
  | UGI_VPCH
  | GENERAL
  | BUFFER
  | ERROR
  | UNKNOWN
deriving DecidableEq

/-- `TubeInfo` dataclass from `src/main.py`; destination fields default to `None`. -/
structure TubeInfo where
  barcode : String
  row : Nat
  col : Nat
  test_type : TestType
  destination_rack : Option Nat := none
  destination_row : Option Nat := none
  destination_col : Option Nat := none
deriving DecidableEq

/-- Python `list.index` (index of the first occurrence; the caller guards membership). -/
def listIndex (t : TestType) : List TestType → Nat
  | [] => 0
  | x :: xs => if x = t then 0 else listIndex t xs + 1

/-- `TestMatrix` state from `src/main.py`.  The Python dicts keyed by `TestType`
(whose key set is exactly the configured `test_types`) are modelled as total
functions; `add_tube` consults them only after checking membership in
`test_types`, exactly as the Python code checks `test_type not in self.racks`. -/
structure TestMatrix where
  test_types : List TestType
  rack_rows : Nat
  rack_cols : Nat
  racks : TestType → List (List (Option TubeInfo))
  rack_positions : TestType → Nat × Nat
  tubes : List TubeInfo

/-- Body of `TestMatrix.__init__` (after the 2..6 length guard). -/
def TestMatrix.init (test_types : List TestType) (rows cols : Nat) : TestMatrix where
  test_types := test_types
  rack_rows := rows
  rack_cols := cols
  racks := fun _ => List.replicate rows (List.replicate cols none)
  rack_positions := fun _ => (0, 0)
  tubes := []

/-- `TestMatrix.__init__` including the `ValueError` raised unless
`2 <= len(test_types) <= 6`; the raise is modelled as `none`. -/
def TestMatrix.mkChecked (test_types : List TestType) (rows cols : Nat) :
    Option TestMatrix :=
  if 2 ≤ test_types.length ∧ test_types.length ≤ 6 then
    some (TestMatrix.init test_types rows cols)
  else none

/-- Write one rack cell (`self.racks[test_type][current_row][current_col] = tube`).
`add_tube` only calls this with the row index below `rack_rows`. -/
def setRackCell (rack : List (List (Option TubeInfo))) (r c : Nat) (x : TubeInfo) :
    List (List (Option TubeInfo)) :=
  rack.set r ((rack.getD r []).set c (some x))

/-- `TestMatrix.add_tube` from `src/main.py` (lines 76-116).  The Python method
mutates `tube` and `self`; here it returns (accepted?, new matrix, tube as the
method leaves it). -/
def TestMatrix.add_tube (m : TestMatrix) (tube : TubeInfo) :
    Bool × TestMatrix × TubeInfo :=
  let tt := tube.test_type
  if tt ∈ m.test_types then
    let pos := m.rack_positions tt
    if m.rack_rows ≤ pos.1 then
      (false, m, tube)
    else
      let tube' := { tube with
        destination_rack := some (listIndex tt m.test_types)
        destination_row := some pos.1
        destination_col := some pos.2 }
      let newCol := pos.2 + 1
      let newPos := if m.rack_cols ≤ newCol then (pos.1 + 1, 0) else (pos.1, newCol)
      (true,
        { m with
          racks := fun s => if s = tt then setRackCell (m.racks tt) pos.1 pos.2 tube'
                            else m.racks s
          rack_positions := fun s => if s = tt then newPos else m.rack_positions s
          tubes := m.tubes ++ [tube'] },
        tube')
  else
    (false, m, tube)

/-- Run a sequence of `add_tube` calls, collecting (final matrix, tubes accepted
in call order, each as `add_tube` left it). -/
def runAdds (m : TestMatrix) : List TubeInfo → TestMatrix × List TubeInfo
  | [] => (m, [])
  | t :: ts =>
    let r := m.add_tube t
    let rest := runAdds r.2.1 ts
    (rest.1, (if r.1 then [r.2.2] else []) ++ rest.2)

/-- Occupied-cell count of one rack, as `print_matrix` computes it
(`sum(1 for row in rack for tube in row if tube is not None)`). -/
def rackFillCount (m : TestMatrix) (t : TestType) : Nat :=
  ((m.racks t).map (fun row => row.countP (fun c => c.isSome))).sum

/-- The destination triple of a tube. -/
def destTriple (x : TubeInfo) : Option Nat × Option Nat × Option Nat :=
  (x.destination_rack, x.destination_row, x.destination_col)

/-- The destination cell (row, col) of a tube. -/
def destRC (x : TubeInfo) : Option Nat × Option Nat :=
  (x.destination_row, x.destination_col)

/-- Number of accepted tubes of classification `t` in a list. -/
def cntType (t : TestType) (acc : List TubeInfo) : Nat :=
  (acc.filter (fun x => decide (x.test_type = t))).length

/-- Modelled from the spec: an explicit reset of one destination grid after a
rack replacement.  `src/` contains no such operation on `TestMatrix` (the spec:
"an external 'grid replaced' event resets the cursor and the associated fill
counter to zero"); faithful to those words, the rack's cells are cleared and its
cursor returns to `(0, 0)`. -/
def TestMatrix.reset_rack (m : TestMatrix) (t : TestType) : TestMatrix :=
  { m with
    racks := fun s => if s = t then List.replicate m.rack_rows (List.replicate m.rack_cols none)
                      else m.racks s
    rack_positions := fun s => if s = t then (0, 0) else m.rack_positions s }

/-! ### Classification (`parse_test_type`, `process_tube_async`) -/

/-- The JSON body returned by the LIS server, as `parse_test_type` reads it:
`response.get("status")` (`none` when the key is missing) and
`response.get("test_codes", [])`. -/
structure LISResponse where
  status : Option String
  test_codes : List String
deriving DecidableEq

/-- ASCII case of Python `str.lower`, character by character. -/
def charLower (c : Char) : Char :=
  if 'A' ≤ c ∧ c ≤ 'Z' then Char.ofNat (c.toNat + 32) else c

/-- Python `str.lower()` as `parse_test_type` applies it to a test code. -/
def pyLower (s : String) : String := String.mk (s.toList.map charLower)

/-- `parse_test_type` from `src/main.py` (lines 198-225).  `none` stands for the
`None` that `get_tube_info_async` returns on network timeout, non-200 status or
any exception. -/
def parse_test_type : Option LISResponse → TestType
  | none => TestType.ERROR
  | some r =>
    if r.status ≠ some "success" then TestType.ERROR
    else
      match r.test_codes with
      | [] => TestType.UNKNOWN
      | c :: _ =>
        let code := pyLower c
        if code = "ugi" then TestType.UGI
        else if code = "vpch" then TestType.VPCH
        else if code = "ugi+vpch" then TestType.UGI_VPCH
        else if code = "general" then TestType.GENERAL
        else if code = "buffer" then TestType.BUFFER
        else if code = "error" then TestType.ERROR
        else TestType.UNKNOWN

/-- `process_tube_async` from `src/main.py` (lines 228-263), with the network
round-trip replaced by its already-received result.  A classification outside
the configured set is not added to any rack (the pick-and-place loop iterates
`test_matrix.tubes`, so such a tube is never moved either). -/
def process_tube_async (m : TestMatrix) (barcode : String) (row col : Nat)
    (response : Option LISResponse) : TestMatrix :=
  let tt := parse_test_type response
  let tube : TubeInfo := { barcode := barcode, row := row, col := col, test_type := tt }
  if tt ∈ m.test_types then (m.add_tube tube).2.1 else m

/-! ### Scan groups (`scan_three_tubes_to_array`, task launching) -/

/-- Python `str.split(';')`. -/
def pySplitSemi (s : String) : List String :=
  pySplitSemiAux s.toList []
where
  pySplitSemiAux : List Char → List Char → List String
    | [], acc => [String.mk acc.reverse]
    | c :: rest, acc =>
      if c = ';' then String.mk acc.reverse :: pySplitSemiAux rest []
      else pySplitSemiAux rest (c :: acc)

/-- One pass of the inner `for i in range(min(3, len(scan_data)))` body of
`scan_three_tubes_to_array`: an empty cell (`0`, modelled `none`) receives
`scan_data[i]` when that token is not the `'NoRead'` sentinel. -/
def scanCellStep (data : List String) (acc : List (Option String) × Nat) (i : Nat) :
    List (Option String) × Nat :=
  if acc.1.getD i none = none ∧ data.getD i "" ≠ "NoRead" then
    (acc.1.set i (some (data.getD i "")), acc.2 + 1)
  else acc

/-- The inner for-loop over the (up to) 3 tokens of one scanner reply. -/
def scanRowUpdate (row : List (Option String)) (cnt : Nat) (data : List String) :
    List (Option String) × Nat :=
  (List.range (min 3 data.length)).foldl (scanCellStep data) (row, cnt)

/-- The retry loop of `scan_three_tubes_to_array` (lines 310-346):
`while tubes_scanned < 3 and attempts < max_attempts`, one `scanner.scan()`
command per iteration.  `oracle k` is the reply to the `k`-th scan command;
returns (scan commands issued, tubes scanned, row contents). -/
def scan_three_go (oracle : Nat → String) (attempts cnt : Nat)
    (row : List (Option String)) : Nat → Nat × Nat × List (Option String)
  | 0 => (attempts, cnt, row)
  | fuel + 1 =>
    if cnt < 3 then
      let result := oracle attempts
      if result = "NoRead" then scan_three_go oracle (attempts + 1) cnt row fuel
      else
        let rc := scanRowUpdate row cnt (pySplitSemi result)
        scan_three_go oracle (attempts + 1) rc.2 rc.1 fuel
    else (attempts, cnt, row)

/-- `scan_three_tubes_to_array` on one fresh row of the 10x3 target array, with
the default `max_attempts=10`. -/
def scan_three_tubes_to_array (oracle : Nat → String) : Nat × Nat × List (Option String) :=
  scan_three_go oracle 0 0 [none, none, none] 10

/-- Classification tasks launched for one scanned row group by
`scan_and_request_parallel` (lines 384-397): one task per cell whose value is
neither `0` nor `'NoRead'`. -/
def tasksForGroup (row : List (Option String)) : Nat :=
  row.countP (fun c =>
    match c with
    | none => false
    | some s => decide (s ≠ "NoRead"))

/-! ### End-effector digital outputs (`pickup_tube`, `place_tube`, sort loop) -/

/-- Digital-output state of the manipulator: channel 1 (residual-vacuum
release), channel 2 (vacuum pickup), plus a trace of every `set_DO` call. -/
structure DOState where
  do1 : Bool
  do2 : Bool
  trace : List (Nat × Bool)
deriving DecidableEq

/-- `cobot.set_DO(ch, v)`. -/
def set_DO (ch : Nat) (v : Bool) (s : DOState) : DOState :=
  { do1 := if ch = 1 then v else s.do1
    do2 := if ch = 2 then v else s.do2
    trace := s.trace ++ [(ch, v)] }

/-- `pickup_tube` from `src/main.py` (lines 494-538), tracking only the digital
outputs; `m1 m2 m3` are the outcomes of its three motion commands (approach,
descend, lift). -/
def pickup_tube (m1 m2 m3 : Bool) (s : DOState) : Bool × DOState :=
  if ¬ m1 then (false, s)
  else
    let s1 := set_DO 2 true s
    if ¬ m2 then (false, set_DO 2 false s1)
    else
      let s2 := set_DO 2 false s1
      if ¬ m3 then (false, set_DO 2 false s2)
      else (true, s2)

/-- `place_tube` from `src/main.py` (lines 541-578); `p1 p2` are the outcomes of
its two motion commands. -/
def place_tube (p1 p2 : Bool) (s : DOState) : Bool × DOState :=
  if ¬ p1 then (false, s)
  else if ¬ p2 then (false, s)
  else (true, set_DO 1 false (set_DO 1 true s))

/-- The compensating action of `process_tubes_by_test_matrix` on a place failure
or a raised exception (lines 638-642 and 650-654): vacuum off, release pulsed
on-then-off. -/
def emergency_release (s : DOState) : DOState :=
  set_DO 1 false (set_DO 1 true (set_DO 2 false s))

/-- One per-tube iteration of the `process_tubes_by_test_matrix` loop
(lines 606-656), tracking the digital outputs along every exit path that does
not raise: pickup failure → `continue`; place failure → compensating action,
then `continue`.  A raised exception runs `emergency_release` from whatever
intermediate state was reached (lines 647-656). -/
def tube_iteration (m1 m2 m3 p1 p2 : Bool) (s : DOState) : DOState :=
  let r := pickup_tube m1 m2 m3 s
  if ¬ r.1 then r.2
  else
    let r2 := place_tube p1 p2 r.2
    if ¬ r2.1 then emergency_release r2.2 else r2.2

/-! ### Run Coordinator (`robot_controller.py`, `server.py`) -/

/-- The `RobotController.state` dict persisted in `robot_state.json`. -/
structure RunState where
  command : String
  running : Bool
  paused : Bool
  rack_to_change : Option String
  current_pallet : Nat
  rack_replaced : Bool
  pause_requested : Bool
deriving DecidableEq

/-- `RobotController.reset` / the initial state. -/
def RunState.reset : RunState where
  command := "idle"
  running := false
  paused := false
  rack_to_change := none
  current_pallet := 0
  rack_replaced := false
  pause_requested := false

/-- `RobotController.set_command`. -/
def set_command (c : String) (s : RunState) : RunState := { s with command := c }

/-- `RobotController.set_running`. -/
def set_running (v : Bool) (s : RunState) : RunState := { s with running := v }

/-- `RobotController.set_paused`: setting `paused=True` also clears
`pause_requested`. -/
def set_paused (v : Bool) (s : RunState) : RunState :=
  if v then { s with paused := true, pause_requested := false }
  else { s with paused := false }

/-- `RobotController.set_pause_requested`. -/
def set_pause_requested (s : RunState) : RunState := { s with pause_requested := true }

/-- `RobotController.set_rack_to_change`: records the destination and clears the
`rack_replaced` acknowledgment. -/
def set_rack_to_change (tag : String) (s : RunState) : RunState :=
  { s with rack_to_change := some tag, rack_replaced := false }

/-- `RobotController.confirm_rack_replaced`. -/
def confirm_rack_replaced (s : RunState) : RunState :=
  { s with rack_replaced := true, rack_to_change := none }

/-- `/api/stop_program` from `src/server.py` (lines 61-79): command `stop`,
`running := false`, `paused := false`.  Nothing else happens (the comment about
terminating the worker process is not implemented by any code). -/
def stop_program (s : RunState) : RunState :=
  set_paused false (set_running false (set_command "stop" s))

/-- `/api/pause_program` from `src/server.py`. -/
def pause_program (s : RunState) : RunState :=
  set_command "pause" (set_pause_requested s)

/-- `/api/resume_program` from `src/server.py`. -/
def resume_program (s : RunState) : RunState :=
  set_command "resume" (set_paused false s)

/-- `RobotController.wait_for_pause_clear` loop (lines 127-132).  Every
`is_paused()` re-loads the shared store, so the environment `env` is applied
before each read; `r` numbers the reads; the fuel is the number of 0.5s sleeps
the 300s timeout still allows (600 at the start).  When the loop exits, the
method reads `is_paused()` once more for its return value.  Returns
(`not is_paused()`, reads consumed, last state read). -/
def waitClearGo (env : Nat → RunState → RunState) (r : Nat) (s : RunState) :
    Nat → Bool × Nat × RunState
  | 0 =>
    let s1 := env r s
    let s2 := env (r + 1) s1
    (!s2.paused, r + 2, s2)
  | fuel + 1 =>
    let s1 := env r s
    if s1.paused then waitClearGo env (r + 1) s1 fuel
    else
      let s2 := env (r + 1) s1
      (!s2.paused, r + 2, s2)

/-- `wait_for_pause_clear` with its default 300s timeout (600 polls). -/
def wait_for_pause_clear (env : Nat → RunState → RunState) (s : RunState)
    (maxPolls : Nat := 600) : Bool × Nat × RunState :=
  waitClearGo env 0 s maxPolls

/-- The polling loop of `RobotController.wait_for_rack_replacement`
(lines 134-154): `while not is_rack_replaced() and elapsed < timeout`, then one
more `is_rack_replaced()` read for the return value. -/
def waitRackGo (env : Nat → RunState → RunState) (r : Nat) (s : RunState) :
    Nat → Bool × Nat × RunState
  | 0 =>
    let s1 := env r s
    let s2 := env (r + 1) s1
    (s2.rack_replaced, r + 2, s2)
  | fuel + 1 =>
    let s1 := env r s
    if s1.rack_replaced then
      let s2 := env (r + 1) s1
      (s2.rack_replaced, r + 2, s2)
    else waitRackGo env (r + 1) s1 fuel

/-- `wait_for_rack_replacement`: records the destination to change (clearing the
acknowledgment flag), then polls; default 600s timeout = 1200 polls. -/
def wait_for_rack_replacement (env : Nat → RunState → RunState) (tag : String)
    (s : RunState) (maxPolls : Nat := 1200) : Bool × Nat × RunState :=
  waitRackGo env 0 (set_rack_to_change tag s) maxPolls

/-- `RobotController.check_pause` (lines 156-196).  `hasPose` says whether a
robot and a pause position were supplied (`if cobot and pause_position`); the
single pause-pose motion is counted (its success is ignored — best effort).
Returns (continue?, pause-pose moves issued, reads consumed, last state). -/
def check_pause (env : Nat → RunState → RunState) (hasPose : Bool)
    (maxPolls : Nat) (s : RunState) : Bool × Nat × Nat × RunState :=
  let s1 := env 0 s
  if s1.pause_requested then
    let moves := if hasPose then 1 else 0
    let s2 := set_paused true s1
    let s3 := env 1 s2
    if s3.paused then
      let w := waitClearGo env 2 s3 maxPolls
      (w.1, moves, w.2.1, w.2.2)
    else (true, moves, 2, s3)
  else
    let s3 := env 1 s1
    if s3.paused then
      let w := waitClearGo env 2 s3 maxPolls
      (w.1, 0, w.2.1, w.2.2)
    else (true, 0, 2, s3)

/-- Environment in which the external control plane issues `stop_program`
before the wait's first read and then stays silent. -/
def stopAt0 : Nat → RunState → RunState :=
  fun k s => if k = 0 then stop_program s else s

/-- Environment in which the external control plane issues `resume_program`
before read number `j` and otherwise stays silent. -/
def resumeEnv (j : Nat) : Nat → RunState → RunState :=
  fun k s => if k = j then resume_program s else s

/-- The silent environment: no external writes at all. -/
def pureEnv : Nat → RunState → RunState := fun _ s => s

/-! ### Coordinator-integrated sort phase (spec §4.3)

`src/main.py`'s `process_tubes_by_test_matrix` never consults the Run
Coordinator and has no grid-full sub-protocol; `RobotController.check_pause`
and `wait_for_rack_replacement` have no callers under `src/` (the spec notes a
second, divergent sort-phase implementation, which is not among the provided
sources).  The engine below is therefore modelled from the spec. -/

/-- Events the modelled sort phase emits, in order, for one item. -/
inductive SortEvent where
  | checkpoint (i : Nat)
  | pauseMove
  | rackRequest (dest : Nat)
  | rackReset (dest : Nat)
  | pickupEv (i : Nat) (ok : Bool)
  | placeEv (i : Nat) (dest row col : Nat) (ok : Bool)
deriving DecidableEq

/-- Per-item outcome of the modelled sort phase. -/
inductive ItemStatus where
  | moved
  | pickFailed
  | placeFailed
  | notReached
deriving DecidableEq

/-- Outcomes of the external world during a sort phase: the Run Coordinator
checkpoint before item `i` (`true` = continue), the acknowledgment of the
`n`-th rack-replacement request, and the motion outcomes of item `i`'s pickup
and place sequences. -/
structure SortEnv where
  checkpoint : Nat → Bool
  rackAck : Nat → Bool
  pickOk : Nat → Bool
  placeOk : Nat → Bool

/-- Modelled from the spec: the pick-and-place engine of §4.3, which is absent
from `src/` (see above).  Per item, in assignment order: (1) consult the
Coordinator checkpoint — on abort stop, leaving the remaining items unmoved;
(2) if the item's destination has reached its capacity, run the grid-full
sub-protocol: move to the pause pose, issue a blocking rack-replacement request,
and on acknowledgment reset that destination's placed-count to zero before
continuing with the same item (an unacknowledged request aborts the phase);
(3) pickup, then place; a failure of either skips the item and continues;
(4) on success increment the destination's placed-count.  Placement cells
derive from the placed-count (row-major), so a reset rebinds placement to
`(0,0)` as in the §8 scenario.  `items` lists each item's destination id;
returns (per-item event blocks, per-item statuses, final placed-counts). -/
def sortRun (env : SortEnv) (caps : Nat → Nat × Nat) (placed : Nat → Nat)
    (i rq : Nat) : List Nat → List (List SortEvent) × List ItemStatus × (Nat → Nat)
  | [] => ([], [], placed)
  | d :: rest =>
    if env.checkpoint i = false then
      ([[SortEvent.checkpoint i]], (d :: rest).map (fun _ => ItemStatus.notReached), placed)
    else
      let rows := (caps d).1
      let cols := (caps d).2
      let needSwap := decide (rows * cols ≤ placed d)
      if needSwap ∧ env.rackAck rq = false then
        ([[SortEvent.checkpoint i, SortEvent.pauseMove, SortEvent.rackRequest d]],
         (d :: rest).map (fun _ => ItemStatus.notReached), placed)
      else
        let pre : List SortEvent :=
          if needSwap then [SortEvent.pauseMove, SortEvent.rackRequest d, SortEvent.rackReset d]
          else []
        let placed1 : Nat → Nat := if needSwap then (fun x => if x = d then 0 else placed x)
                                   else placed
        let rq1 := if needSwap then rq + 1 else rq
        if env.pickOk i = false then
          let out := sortRun env caps placed1 (i + 1) rq1 rest
          ((SortEvent.checkpoint i :: pre ++ [SortEvent.pickupEv i false]) :: out.1,
           ItemStatus.pickFailed :: out.2.1, out.2.2)
        else
          let row := placed1 d / cols
          let col := placed1 d % cols
          let ok := env.placeOk i
          let placed2 : Nat → Nat :=
            if ok then (fun x => if x = d then placed1 d + 1 else placed1 x) else placed1
          let out := sortRun env caps placed2 (i + 1) rq1 rest
          ((SortEvent.checkpoint i :: pre ++
              [SortEvent.pickupEv i true, SortEvent.placeEv i d row col ok]) :: out.1,
           (if ok then ItemStatus.moved else ItemStatus.placeFailed) :: out.2.1, out.2.2)

/-- The sort environment in which every checkpoint continues, every rack
replacement is acknowledged and every motion succeeds. -/
def allTrueEnv : SortEnv where
  checkpoint := fun _ => true
  rackAck := fun _ => true
  pickOk := fun _ => true
  placeOk := fun _ => true

/-- The per-item status the modelled engine produces for an item it reaches
(with every rack replacement acknowledged). -/
def expectedStatus (env : SortEnv) (j : Nat) : ItemStatus :=
  if env.pickOk j then (if env.placeOk j then ItemStatus.moved else ItemStatus.placeFailed)
  else ItemStatus.pickFailed

/-! ## Theorems -/

/-- C10: whenever `add_tube` returns `False` (unsupported test type or full
rack), the `TestMatrix` state is completely unchanged — no rack cell written,
no cursor advanced, the `tubes` list not grown — and the rejected tube is left
exactly as it came in, so its destination fields stay `None`. -/
theorem add_tube_reject_unchanged (m : TestMatrix) (tube : TubeInfo)
    (h : (m.add_tube tube).1 = false) :
    (m.add_tube tube).2.1 = m ∧ (m.add_tube tube).2.2 = tube := by
  by_cases hmem : tube.test_type ∈ m.test_types
  · by_cases hfull : m.rack_rows ≤ (m.rack_positions tube.test_type).1
    · simp [TestMatrix.add_tube, hmem, hfull]
    · exfalso
      simp [TestMatrix.add_tube, hmem, hfull] at h
  · simp [TestMatrix.add_tube, hmem]

theorem add_tube_reject_unchanged_witness :
    ((TestMatrix.init [TestType.UGI, TestType.VPCH] 10 6).add_tube
        { barcode := "X1", row := 0, col := 0, test_type := TestType.GENERAL }).1 = false
    ∧ ((TestMatrix.init [TestType.UGI, TestType.VPCH] 10 6).add_tube
        { barcode := "X1", row := 0, col := 0, test_type := TestType.GENERAL }).2.1
      = TestMatrix.init [TestType.UGI, TestType.VPCH] 10 6
    ∧ ((TestMatrix.init [TestType.UGI, TestType.VPCH] 10 6).add_tube
        { barcode := "X1", row := 0, col := 0, test_type := TestType.GENERAL }).2.2
      = { barcode := "X1", row := 0, col := 0, test_type := TestType.GENERAL } :=
  ⟨by decide,
   (add_tube_reject_unchanged _ _ (by decide)).1,
   (add_tube_reject_unchanged _ _ (by decide)).2⟩

/-- C2: `parse_test_type` maps a `success` response whose first test code
(lower-cased) is one of the six fixed codes to the matching enum value; any
other first code and an empty code list give `UNKNOWN`; a missing response or a
non-`success` status gives `ERROR`; and a tube whose classification is outside
the configured set is never added to any rack (`process_tube_async` leaves the
matrix — including the `tubes` list that the pick-and-place loop iterates —
unchanged), hence is never moved. -/
theorem classification_mapping :
    parse_test_type none = TestType.ERROR
    ∧ (∀ r : LISResponse, r.status ≠ some "success" →
        parse_test_type (some r) = TestType.ERROR)
    ∧ parse_test_type (some ⟨some "success", []⟩) = TestType.UNKNOWN
    ∧ (∀ c rest, pyLower c = "ugi" →
        parse_test_type (some ⟨some "success", c :: rest⟩) = TestType.UGI)
    ∧ (∀ c rest, pyLower c = "vpch" →
        parse_test_type (some ⟨some "success", c :: rest⟩) = TestType.VPCH)
    ∧ (∀ c rest, pyLower c = "ugi+vpch" →
        parse_test_type (some ⟨some "success", c :: rest⟩) = TestType.UGI_VPCH)
    ∧ (∀ c rest, pyLower c = "general" →
        parse_test_type (some ⟨some "success", c :: rest⟩) = TestType.GENERAL)
    ∧ (∀ c rest, pyLower c = "buffer" →
        parse_test_type (some ⟨some "success", c :: rest⟩) = TestType.BUFFER)
    ∧ (∀ c rest, pyLower c = "error" →
        parse_test_type (some ⟨some "success", c :: rest⟩) = TestType.ERROR)
    ∧ (∀ c rest, pyLower c ∉
          (["ugi", "vpch", "ugi+vpch", "general", "buffer", "error"] : List String) →
        parse_test_type (some ⟨some "success", c :: rest⟩) = TestType.UNKNOWN)
    ∧ (∀ (m : TestMatrix) (b : String) (row col : Nat) (resp : Option LISResponse),
        parse_test_type resp ∉ m.test_types →
        process_tube_async m b row col resp = m) := by
  refine ⟨rfl, ?_, rfl, ?_, ?_, ?_, ?_, ?_, ?_, ?_, ?_⟩
  · intro r hr
    simp [parse_test_type, hr]
  · intro c rest h; simp [parse_test_type, h]
  · intro c rest h; simp [parse_test_type, h]
  · intro c rest h; simp [parse_test_type, h]
  · intro c rest h; simp [parse_test_type, h]
  · intro c rest h; simp [parse_test_type, h]
  · intro c rest h; simp [parse_test_type, h]
  · intro c rest h
    simp only [List.mem_cons, List.mem_singleton] at h
    push_neg at h
    obtain ⟨h1, h2, h3, h4, h5, h6⟩ := h
    simp [parse_test_type, h1, h2, h3, h4, h5, h6]
  · intro m b row col resp h
    simp [process_tube_async, h]

theorem classification_mapping_witness :
    parse_test_type (some ⟨some "success", ["UGI"]⟩) = TestType.UGI
    ∧ parse_test_type (some ⟨some "success", ["xyz"]⟩) = TestType.UNKNOWN
    ∧ parse_test_type (some ⟨some "fail", ["ugi"]⟩) = TestType.ERROR
    ∧ process_tube_async (TestMatrix.init [TestType.UGI, TestType.VPCH] 10 6) "B" 0 0 none
      = TestMatrix.init [TestType.UGI, TestType.VPCH] 10 6 :=
  ⟨classification_mapping.2.2.2.1 "UGI" [] (by decide),
   classification_mapping.2.2.2.2.2.2.2.2.2.1 "xyz" [] (by decide),
   classification_mapping.2.1 ⟨some "fail", ["ugi"]⟩ (by decide),
   classification_mapping.2.2.2.2.2.2.2.2.2.2 _ "B" 0 0 none (by decide)⟩

/-- C9: starting from a de-energized end-effector, every exit path of a
per-tube pick-and-place iteration — pickup motion failure, place motion
failure, or a raised exception (whose handler is `emergency_release` from any
intermediate state) — leaves the vacuum pickup output (channel 2) off; on a
place failure or an exception the release output (channel 1) is pulsed
on-then-off as the last recorded output commands.  The end-effector is never
left energized. -/
theorem end_effector_never_energized (m1 m2 m3 p1 p2 : Bool) (s : DOState)
    (h1 : s.do1 = false) (h2 : s.do2 = false) :
    (tube_iteration m1 m2 m3 p1 p2 s).do1 = false
    ∧ (tube_iteration m1 m2 m3 p1 p2 s).do2 = false
    ∧ (m1 = true → m2 = true → m3 = true → (p1 = false ∨ p2 = false) →
        ∃ t, (tube_iteration m1 m2 m3 p1 p2 s).trace
          = t ++ [(2, false), (1, true), (1, false)])
    ∧ (∀ s' : DOState, (emergency_release s').do1 = false
        ∧ (emergency_release s').do2 = false
        ∧ ∃ t, (emergency_release s').trace = t ++ [(2, false), (1, true), (1, false)]) := by
  refine ⟨?_, ?_, ?_, ?_⟩
  · cases m1 <;> cases m2 <;> cases m3 <;> cases p1 <;> cases p2 <;>
      simp [tube_iteration, pickup_tube, place_tube, emergency_release, set_DO, h1, h2]
  · cases m1 <;> cases m2 <;> cases m3 <;> cases p1 <;> cases p2 <;>
      simp [tube_iteration, pickup_tube, place_tube, emergency_release, set_DO, h1, h2]
  · intro hm1 hm2 hm3 hp
    subst hm1; subst hm2; subst hm3
    rcases hp with hp | hp <;> subst hp
    · refine ⟨s.trace ++ [(2, true), (2, false)], ?_⟩
      simp [tube_iteration, pickup_tube, place_tube, emergency_release, set_DO]
    · cases p1 <;>
        · refine ⟨s.trace ++ [(2, true), (2, false)], ?_⟩
          simp [tube_iteration, pickup_tube, place_tube, emergency_release, set_DO]
  · intro s'
    refine ⟨?_, ?_, ⟨s'.trace, ?_⟩⟩ <;> simp [emergency_release, set_DO]

theorem end_effector_never_energized_witness :
    (tube_iteration true true true false true ⟨false, false, []⟩).do1 = false
    ∧ (tube_iteration true true true false true ⟨false, false, []⟩).do2 = false :=
  ⟨(end_effector_never_energized true true true false true ⟨false, false, []⟩ rfl rfl).1,
   (end_effector_never_energized true true true false true ⟨false, false, []⟩ rfl rfl).2.1⟩

/-- After the first read, `stopAt0` leaves the state alone, so a rack wait whose
state is not acknowledged polls through its entire fuel. -/
lemma waitRackGo_stopAt0_full (fuel : Nat) :
    ∀ (r : Nat) (s : RunState), 1 ≤ r → s.rack_replaced = false →
    waitRackGo stopAt0 r s fuel = (false, r + fuel + 2, s) := by
  induction fuel with
  | zero =>
    intro r s hr hrep
    have hr0 : r ≠ 0 := by omega
    have hr1 : r + 1 ≠ 0 := by omega
    simp [waitRackGo, stopAt0, hr0, hr1, hrep]
  | succ fuel ih =>
    intro r s hr hrep
    have hr0 : r ≠ 0 := by omega
    have step : waitRackGo stopAt0 r s (fuel + 1) = waitRackGo stopAt0 (r + 1) s fuel := by
      simp [waitRackGo, stopAt0, hr0, hrep]
    rw [step, ih (r + 1) s (by omega) hrep]
    have : r + 1 + fuel + 2 = r + (fuel + 1) + 2 := by omega
    rw [this]

/-- One iteration of the rack-replacement polling loop with the acknowledgment
still absent. -/
lemma waitRackGo_step (env : Nat → RunState → RunState) (r : Nat) (s : RunState)
    (fuel : Nat) (h : (env r s).rack_replaced = false) :
    waitRackGo env r s (fuel + 1) = waitRackGo env (r + 1) (env r s) fuel := by
  simp [waitRackGo, h]

/-- C5 (actual behavior at the failing input): an external `stop_program`
issued while a checkpoint wait is in progress is NOT observed as an abort.
`wait_for_pause_clear` unblocks after 2 reads only because `stop_program` also
clears `paused`, and returns `true` ("pause cleared, continue") — not abort —
while `wait_for_rack_replacement` never reads `running` (which is `false` in
every state it polls) and keeps polling for its entire 600-second timeout
(1202 reads), returning `false` only then. -/
theorem stop_not_observed_by_waits :
    (wait_for_pause_clear stopAt0
      { RunState.reset with running := true, paused := true }).1 = true
    ∧ (wait_for_pause_clear stopAt0
      { RunState.reset with running := true, paused := true }).2.1 = 2
    ∧ (wait_for_rack_replacement stopAt0 "ugi"
      { RunState.reset with running := true }).1 = false
    ∧ (wait_for_rack_replacement stopAt0 "ugi"
      { RunState.reset with running := true }).2.1 = 1202
    ∧ (wait_for_rack_replacement stopAt0 "ugi"
      { RunState.reset with running := true }).2.2.running = false := by
  have key := waitRackGo_stopAt0_full 1199 1
      (stop_program (set_rack_to_change "ugi" { RunState.reset with running := true }))
      (by omega) (by decide)
  have e0 : ∀ x, stopAt0 0 x = stop_program x := fun _ => rfl
  have step1 := waitRackGo_step stopAt0 0
      (set_rack_to_change "ugi" { RunState.reset with running := true }) 1199 (by decide)
  rw [e0] at step1
  norm_num at step1
  have wdef : wait_for_rack_replacement stopAt0 "ugi" { RunState.reset with running := true }
      = waitRackGo stopAt0 0
          (set_rack_to_change "ugi" { RunState.reset with running := true }) 1200 :=
    rfl
  refine ⟨by decide, by decide, ?_, ?_, ?_⟩
  · rw [wdef, step1, key]
  · rw [wdef, step1, key]
  · rw [wdef, step1, key]; decide

/-- While no external resume arrives, the wait loop keeps polling; with the
silent environment it uses all its fuel and reports the pause still set. -/
lemma waitClearGo_pureEnv (fuel : Nat) :
    ∀ (r : Nat) (s : RunState), s.paused = true →
    waitClearGo pureEnv r s fuel = (false, r + fuel + 2, s) := by
  induction fuel with
  | zero =>
    intro r s hp
    simp [waitClearGo, pureEnv, hp]
  | succ fuel ih =>
    intro r s hp
    have step : waitClearGo pureEnv r s (fuel + 1) = waitClearGo pureEnv (r + 1) s fuel := by
      simp [waitClearGo, pureEnv, hp]
    rw [step, ih (r + 1) s hp]
    have : r + 1 + fuel + 2 = r + (fuel + 1) + 2 := by omega
    rw [this]

/-- A single external resume at read `j` unblocks the wait loop at that read:
the wait returns `true` after `j + 2` reads. -/
lemma waitClearGo_resumeEnv (j : Nat) (fuel : Nat) :
    ∀ (r : Nat) (s : RunState), r ≤ j → j ≤ r + fuel → s.paused = true →
    (waitClearGo (resumeEnv j) r s fuel).1 = true
    ∧ (waitClearGo (resumeEnv j) r s fuel).2.1 = j + 2 := by
  induction fuel with
  | zero =>
    intro r s hrj hjr hp
    have hjr' : r = j := by omega
    subst hjr'
    have hne : r + 1 ≠ r := by omega
    simp [waitClearGo, resumeEnv, hne, resume_program, set_paused, set_command]
  | succ fuel ih =>
    intro r s hrj hjr hp
    by_cases hr : r = j
    · subst hr
      have hne : r + 1 ≠ r := by omega
      simp [waitClearGo, resumeEnv, hne, resume_program, set_paused, set_command]
    · have hlt : r < j := by omega
      have hne : r ≠ j := by omega
      have step : waitClearGo (resumeEnv j) r s (fuel + 1)
          = waitClearGo (resumeEnv j) (r + 1) s fuel := by
        simp [waitClearGo, resumeEnv, hne, hp]
      rw [step]
      exact ih (r + 1) s (by omega) (by omega) hp

/-- C6: when `pause_requested` is set, `check_pause` issues the pause-pose move
exactly once, transitions via `set_paused true` — which sets `paused` and
clears `pause_requested` — and then blocks polling (600 polls of 0.5s = the
300-second pause-clear timeout).  An external resume at read `j` unblocks it:
the checkpoint returns continue (`true`) with still exactly one pause-pose
move; with no resume at all, the wait exhausts the full 600 polls (reads run to
604) and the checkpoint reports abort (`false`). -/
theorem pause_checkpoint_protocol (s : RunState) (j : Nat)
    (hreq : s.pause_requested = true) (hj2 : 2 ≤ j) (hj600 : j ≤ 600) :
    ((set_paused true s).paused = true ∧ (set_paused true s).pause_requested = false)
    ∧ (check_pause (resumeEnv j) true 600 s).1 = true
    ∧ (check_pause (resumeEnv j) true 600 s).2.1 = 1
    ∧ (check_pause (resumeEnv j) true 600 s).2.2.1 = j + 2
    ∧ (check_pause pureEnv true 600 s).1 = false
    ∧ (check_pause pureEnv true 600 s).2.1 = 1
    ∧ (check_pause pureEnv true 600 s).2.2.1 = 604 := by
  have hpauseset : (set_paused true s).paused = true ∧
      (set_paused true s).pause_requested = false := by
    simp [set_paused]
  have h0j : (0 : Nat) ≠ j := by omega
  have h1j : (1 : Nat) ≠ j := by omega
  have hresume : check_pause (resumeEnv j) true 600 s
      = ((waitClearGo (resumeEnv j) 2 (set_paused true s) 600).1, 1,
         (waitClearGo (resumeEnv j) 2 (set_paused true s) 600).2.1,
         (waitClearGo (resumeEnv j) 2 (set_paused true s) 600).2.2) := by
    simp [check_pause, resumeEnv, h0j, h1j, hreq, hpauseset.1]
  have hpure : check_pause pureEnv true 600 s
      = ((waitClearGo pureEnv 2 (set_paused true s) 600).1, 1,
         (waitClearGo pureEnv 2 (set_paused true s) 600).2.1,
         (waitClearGo pureEnv 2 (set_paused true s) 600).2.2) := by
    simp [check_pause, pureEnv, hreq, hpauseset.1]
  have hw := waitClearGo_resumeEnv j 600 2 (set_paused true s) hj2 (by omega) hpauseset.1
  have hwp := waitClearGo_pureEnv 600 2 (set_paused true s) hpauseset.1
  refine ⟨hpauseset, ?_, ?_, ?_, ?_, ?_, ?_⟩
  · rw [hresume]; exact hw.1
  · rw [hresume]
  · rw [hresume]; exact hw.2
  · rw [hpure, hwp]
  · rw [hpure]
  · rw [hpure, hwp]

theorem pause_checkpoint_protocol_witness :
    (check_pause (resumeEnv 2) true 600 { RunState.reset with pause_requested := true }).1 = true
    ∧ (check_pause (resumeEnv 2) true 600
        { RunState.reset with pause_requested := true }).2.1 = 1
    ∧ (check_pause pureEnv true 600 { RunState.reset with pause_requested := true }).1 = false :=
  ⟨(pause_checkpoint_protocol { RunState.reset with pause_requested := true } 2
      rfl (by omega) (by omega)).2.1,
   (pause_checkpoint_protocol { RunState.reset with pause_requested := true } 2
      rfl (by omega) (by omega)).2.2.1,
   (pause_checkpoint_protocol { RunState.reset with pause_requested := true } 2
      rfl (by omega) (by omega)).2.2.2.2.1⟩

/-- C8 fails as stated: with a scan group of 3 cells holding exactly one
readable identifier (the scanner replying `"AB123;NoRead;NoRead"` to every
trigger), `scan_three_tubes_to_array` does NOT issue exactly one scan command —
it retries until `max_attempts` and issues 10 — and the two unreadable slots
are left as the empty marker (`0`, here `none`), not recorded with the
`'NoRead'` sentinel. -/
theorem scan_group_single_read_counterexample :
    (scan_three_tubes_to_array (fun _ => "AB123;NoRead;NoRead")).1 = 10
    ∧ ¬ ((scan_three_tubes_to_array (fun _ => "AB123;NoRead;NoRead")).1 = 1)
    ∧ (scan_three_tubes_to_array (fun _ => "AB123;NoRead;NoRead")).2.2
      = [some "AB123", none, none] := by
  refine ⟨by decide, by decide, by decide⟩

/-- Once the row holds the single readable id and the reply never changes, each
further attempt scans again but records nothing. -/
lemma scan_three_go_steady (oracle : Nat → String) (reply id : String)
    (horacle : ∀ k, oracle k = reply)
    (hsplit : pySplitSemi reply = [id, "NoRead", "NoRead"])
    (hr : reply ≠ "NoRead") :
    ∀ (fuel attempts : Nat),
    scan_three_go oracle attempts 1 [some id, none, none] fuel
      = (attempts + fuel, 1, [some id, none, none]) := by
  intro fuel
  induction fuel with
  | zero => intro attempts; simp [scan_three_go]
  | succ fuel ih =>
    intro attempts
    have hupd : scanRowUpdate [some id, none, none] 1 (pySplitSemi reply)
        = ([some id, none, none], 1) := by
      rw [hsplit]
      simp [scanRowUpdate, List.range_succ, scanCellStep]
    rw [scan_three_go]
    simp only [horacle attempts, if_neg hr, hupd, Nat.lt_irrefl]
    rw [if_pos (by omega)]
    rw [ih (attempts + 1)]
    have : attempts + 1 + fuel = attempts + (fuel + 1) := by omega
    rw [this]

/-- C8 amended: with exactly one readable identifier in a group of 3 (the
scanner reply splits as `[id, "NoRead", "NoRead"]` and never changes), the
retry loop issues `max_attempts = 10` scan commands — not one — records the
readable identifier in its slot, leaves the other two slots as the empty
marker (`none`, i.e. Python `0`, not the `'NoRead'` string), and exactly one
classification task is launched for the group (none for the two empty slots). -/
theorem scan_group_retry_behavior (oracle : Nat → String) (reply id : String)
    (horacle : ∀ k, oracle k = reply)
    (hsplit : pySplitSemi reply = [id, "NoRead", "NoRead"])
    (hr : reply ≠ "NoRead") (hid : id ≠ "NoRead") :
    scan_three_tubes_to_array oracle = (10, 1, [some id, none, none])
    ∧ tasksForGroup [some id, none, none] = 1 := by
  constructor
  · have hupd0 : scanRowUpdate [none, none, none] 0 (pySplitSemi reply)
        = ([some id, none, none], 1) := by
      rw [hsplit]
      simp [scanRowUpdate, List.range_succ, scanCellStep, hid]
    have start : scan_three_tubes_to_array oracle
        = scan_three_go oracle 1 1 [some id, none, none] 9 := by
      show scan_three_go oracle 0 0 [none, none, none] (9 + 1) = _
      rw [scan_three_go]
      simp only [horacle 0, if_neg hr, hupd0]
      rw [if_pos (by omega)]
    rw [start, scan_three_go_steady oracle reply id horacle hsplit hr 9 1]
  · simp [tasksForGroup, hid]

theorem scan_group_retry_behavior_witness :
    scan_three_tubes_to_array (fun _ => "QQ7;NoRead;NoRead")
      = (10, 1, [some "QQ7", none, none])
    ∧ tasksForGroup [some "QQ7", none, none] = 1 :=
  scan_group_retry_behavior (fun _ => "QQ7;NoRead;NoRead") "QQ7;NoRead;NoRead" "QQ7"
    (fun _ => rfl) (by decide) (by decide) (by decide)

/-- C3 (on the spec-modelled engine, see `sortRun`): a destination grid of
capacity `10×6 = 60` receiving 61 same-classification items triggers the
grid-full sub-protocol exactly once — one pause-pose move and one blocking
rack-replacement request, both during item 61's processing — and after the
replacement is acknowledged the placed-count of that destination is reset
(the final count is `1`: reset to `0`, then incremented by the one successful
placement) and the 61st item is placed at cell `(0, 0)` of the logically reset
destination. -/
theorem rack_full_subprotocol_scenario :
    (sortRun allTrueEnv (fun _ => (10, 6)) (fun _ => 0) 0 0 (List.replicate 61 0)).1.flatten.countP
        (fun e => match e with | SortEvent.rackRequest _ => true | _ => false) = 1
    ∧ (sortRun allTrueEnv (fun _ => (10, 6)) (fun _ => 0) 0 0 (List.replicate 61 0)).1.flatten.countP
        (fun e => match e with | SortEvent.pauseMove => true | _ => false) = 1
    ∧ (sortRun allTrueEnv (fun _ => (10, 6)) (fun _ => 0) 0 0 (List.replicate 61 0)).1.getD 60 []
      = [SortEvent.checkpoint 60, SortEvent.pauseMove, SortEvent.rackRequest 0,
         SortEvent.rackReset 0, SortEvent.pickupEv 60 true, SortEvent.placeEv 60 0 0 0 true]
    ∧ (sortRun allTrueEnv (fun _ => (10, 6)) (fun _ => 0) 0 0 (List.replicate 61 0)).2.2 0 = 1
    ∧ (sortRun allTrueEnv (fun _ => (10, 6)) (fun _ => 0) 0 0 (List.replicate 61 0)).2.1
      = List.replicate 61 ItemStatus.moved := by
  refine ⟨by decide, by decide, by decide, by decide, by decide⟩

/-- A constant map is a `replicate`. -/
lemma map_const_eq {α β : Type} (l : List α) (c : β) :
    l.map (fun _ => c) = List.replicate l.length c := by
  induction l with
  | nil => simp
  | cons x xs ih => simp [ih, List.replicate_succ]

/-- Every per-item block the modelled sort engine emits begins with that item's
Run Coordinator checkpoint. -/
lemma sortRun_blocks_head (env : SortEnv) (caps : Nat → Nat × Nat) :
    ∀ (items : List Nat) (i rq : Nat) (placed : Nat → Nat) (k : Nat),
    k < (sortRun env caps placed i rq items).1.length →
    ((sortRun env caps placed i rq items).1.getD k []).head?
      = some (SortEvent.checkpoint (i + k)) := by
  intro items
  induction items with
  | nil => intro i rq placed k hk; simp [sortRun] at hk
  | cons d rest ih =>
    intro i rq placed k hk
    by_cases hcp : env.checkpoint i = false
    · simp only [sortRun, hcp, if_pos] at hk ⊢
      simp at hk
      have hk0 : k = 0 := by omega
      subst hk0
      simp
    · simp only [sortRun, if_neg hcp] at hk ⊢
      by_cases hsw : (decide ((caps d).1 * (caps d).2 ≤ placed d) = true
          ∧ env.rackAck rq = false)
      · simp only [if_pos hsw] at hk ⊢
        simp at hk
        have hk0 : k = 0 := by omega
        subst hk0
        simp
      · simp only [if_neg hsw] at hk ⊢
        by_cases hpk : env.pickOk i = false
        · simp only [if_pos hpk] at hk ⊢
          match k with
          | 0 => simp
          | k' + 1 =>
            simp only [List.getD_cons_succ]
            simp only [List.length_cons] at hk
            have harith : i + (k' + 1) = i + 1 + k' := by omega
            rw [harith]
            exact ih (i + 1) _ _ k' (by omega)
        · simp only [if_neg hpk] at hk ⊢
          match k with
          | 0 => simp
          | k' + 1 =>
            simp only [List.getD_cons_succ]
            simp only [List.length_cons] at hk
            have harith : i + (k' + 1) = i + 1 + k' := by omega
            rw [harith]
            exact ih (i + 1) _ _ k' (by omega)

/-- With every rack replacement acknowledged, an abort verdict at the
checkpoint of item `a` (all earlier checkpoints passing) stops the modelled
sort phase right there: item `a`'s block is just its checkpoint, and items from
`a` on are reported `notReached` while every earlier item carries its normal
pick/place outcome. -/
lemma sortRun_abort (env : SortEnv) (caps : Nat → Nat × Nat)
    (hack : ∀ n, env.rackAck n = true) :
    ∀ (items : List Nat) (a i rq : Nat) (placed : Nat → Nat),
    a < items.length →
    (∀ j, j < a → env.checkpoint (i + j) = true) →
    env.checkpoint (i + a) = false →
    (sortRun env caps placed i rq items).1.length = a + 1
    ∧ (sortRun env caps placed i rq items).1.getD a [] = [SortEvent.checkpoint (i + a)]
    ∧ (sortRun env caps placed i rq items).2.1
      = (List.range items.length).map
          (fun j => if j < a then expectedStatus env (i + j) else ItemStatus.notReached) := by
  intro items
  induction items with
  | nil => intro a i rq placed ha; simp at ha
  | cons d rest ih =>
    intro a i rq placed ha hcont habort
    match a, ha, hcont, habort with
    | 0, ha, hcont, habort =>
      have hcp : env.checkpoint i = false := by simpa using habort
      refine ⟨by simp [sortRun, hcp], by simp [sortRun, hcp], ?_⟩
      simp only [sortRun, hcp, if_pos]
      simp only [Nat.not_lt_zero, if_false]
      rw [map_const_eq, map_const_eq]
      simp
    | a' + 1, ha, hcont, habort =>
      have hcp : env.checkpoint i = true := by
        have h := hcont 0 (by omega)
        simpa using h
      have hcpn : ¬ (env.checkpoint i = false) := by simp [hcp]
      have hswn : ¬ (decide ((caps d).1 * (caps d).2 ≤ placed d) = true
          ∧ env.rackAck rq = false) := by
        rintro ⟨-, hfalse⟩
        rw [hack rq] at hfalse
        cases hfalse
      have ha' : a' < rest.length := by
        simp only [List.length_cons] at ha
        omega
      have hcont' : ∀ j, j < a' → env.checkpoint (i + 1 + j) = true := by
        intro j hj
        have h := hcont (j + 1) (by omega)
        have e : i + (j + 1) = i + 1 + j := by omega
        rwa [e] at h
      have habort' : env.checkpoint (i + 1 + a') = false := by
        have e : i + (a' + 1) = i + 1 + a' := by omega
        rwa [e] at habort
      have hstat : ∀ (P : Nat → Nat) (R : Nat),
          (sortRun env caps P (i + 1) R rest).2.1
            = (List.range rest.length).map
                (fun j => if j < a' then expectedStatus env (i + 1 + j)
                          else ItemStatus.notReached) :=
        fun P R => (ih a' (i + 1) R P ha' hcont' habort').2.2
      have htailfun : ((fun j => if j < a' + 1 then expectedStatus env (i + j)
              else ItemStatus.notReached) ∘ Nat.succ)
          = (fun j => if j < a' then expectedStatus env (i + 1 + j)
              else ItemStatus.notReached) := by
        funext j
        simp only [Function.comp_apply]
        have e : i + Nat.succ j = i + 1 + j := by omega
        rw [e]
        by_cases hj : j < a'
        · rw [if_pos (by omega), if_pos hj]
        · rw [if_neg (by omega), if_neg hj]
      by_cases hpk : env.pickOk i = false
      · refine ⟨?_, ?_, ?_⟩
        · simp only [sortRun, if_neg hcpn, if_neg hswn, if_pos hpk, List.length_cons]
          rw [(ih a' (i + 1) _ _ ha' hcont' habort').1]
        · simp only [sortRun, if_neg hcpn, if_neg hswn, if_pos hpk, List.getD_cons_succ]
          have harith : i + (a' + 1) = i + 1 + a' := by omega
          rw [harith]
          exact (ih a' (i + 1) _ _ ha' hcont' habort').2.1
        · simp only [sortRun, if_neg hcpn, if_neg hswn, if_pos hpk]
          simp only [List.length_cons]
          rw [List.range_succ_eq_map, List.map_cons, List.map_map]
          rw [if_pos (by omega : (0 : Nat) < a' + 1)]
          rw [htailfun, hstat]
          have hhead : expectedStatus env (i + 0) = ItemStatus.pickFailed := by
            simp [expectedStatus, hpk]
          rw [hhead]
      · refine ⟨?_, ?_, ?_⟩
        · simp only [sortRun, if_neg hcpn, if_neg hswn, if_neg hpk, List.length_cons]
          rw [(ih a' (i + 1) _ _ ha' hcont' habort').1]
        · simp only [sortRun, if_neg hcpn, if_neg hswn, if_neg hpk, List.getD_cons_succ]
          have harith : i + (a' + 1) = i + 1 + a' := by omega
          rw [harith]
          exact (ih a' (i + 1) _ _ ha' hcont' habort').2.1
        · simp only [sortRun, if_neg hcpn, if_neg hswn, if_neg hpk]
          simp only [List.length_cons]
          rw [List.range_succ_eq_map, List.map_cons, List.map_map]
          rw [if_pos (by omega : (0 : Nat) < a' + 1)]
          rw [htailfun, hstat]
          have hpk' : env.pickOk i = true := by
            cases h : env.pickOk i
            · exact absurd h hpk
            · rfl
          have hhead : expectedStatus env (i + 0)
              = (if env.placeOk i then ItemStatus.moved else ItemStatus.placeFailed) := by
            simp [expectedStatus, hpk']
          rw [hhead]

/-- C4 (on the spec-modelled engine, see `sortRun`): the loop consults the Run
Coordinator checkpoint before beginning each tube's pickup — every emitted
per-item block starts with that item's checkpoint event — and when the
checkpoint of item `a` reports abort (all earlier ones passing, every rack
replacement acknowledged), processing stops there: exactly `a + 1` blocks are
emitted, item `a`'s block is only its checkpoint (no pickup or place event),
and every item from `a` on is reported `notReached`, i.e. physically unmoved. -/
theorem sort_abort_checkpoint (env : SortEnv) (caps : Nat → Nat × Nat)
    (placed : Nat → Nat) (items : List Nat) (a : Nat)
    (hack : ∀ n, env.rackAck n = true)
    (ha : a < items.length)
    (hcont : ∀ j, j < a → env.checkpoint j = true)
    (habort : env.checkpoint a = false) :
    (∀ k, k < (sortRun env caps placed 0 0 items).1.length →
      ((sortRun env caps placed 0 0 items).1.getD k []).head?
        = some (SortEvent.checkpoint k))
    ∧ (sortRun env caps placed 0 0 items).1.length = a + 1
    ∧ (sortRun env caps placed 0 0 items).1.getD a [] = [SortEvent.checkpoint a]
    ∧ (sortRun env caps placed 0 0 items).2.1
      = (List.range items.length).map
          (fun j => if j < a then expectedStatus env j else ItemStatus.notReached) := by
  have hcont0 : ∀ j, j < a → env.checkpoint (0 + j) = true := by
    intro j hj
    rw [Nat.zero_add]
    exact hcont j hj
  have habort0 : env.checkpoint (0 + a) = false := by
    rw [Nat.zero_add]
    exact habort
  have hmain := sortRun_abort env caps hack items a 0 0 placed ha hcont0 habort0
  refine ⟨?_, hmain.1, ?_, ?_⟩
  · intro k hk
    have h := sortRun_blocks_head env caps items 0 0 placed k hk
    rwa [Nat.zero_add] at h
  · have h := hmain.2.1
    rwa [Nat.zero_add] at h
  · have h := hmain.2.2
    have e : (fun j => if j < a then expectedStatus env (0 + j) else ItemStatus.notReached)
        = (fun j => if j < a then expectedStatus env j else ItemStatus.notReached) := by
      funext j
      rw [Nat.zero_add]
    rwa [e] at h

theorem sort_abort_checkpoint_witness :
    (∀ k, k < (sortRun ⟨fun j => decide (j < 1), fun _ => true, fun _ => true, fun _ => true⟩
        (fun _ => (10, 6)) (fun _ => 0) 0 0 [5, 5, 5]).1.length →
      ((sortRun ⟨fun j => decide (j < 1), fun _ => true, fun _ => true, fun _ => true⟩
        (fun _ => (10, 6)) (fun _ => 0) 0 0 [5, 5, 5]).1.getD k []).head?
        = some (SortEvent.checkpoint k))
    ∧ (sortRun ⟨fun j => decide (j < 1), fun _ => true, fun _ => true, fun _ => true⟩
        (fun _ => (10, 6)) (fun _ => 0) 0 0 [5, 5, 5]).1.length = 2
    ∧ (sortRun ⟨fun j => decide (j < 1), fun _ => true, fun _ => true, fun _ => true⟩
        (fun _ => (10, 6)) (fun _ => 0) 0 0 [5, 5, 5]).1.getD 1 []
      = [SortEvent.checkpoint 1] :=
  ⟨(sort_abort_checkpoint ⟨fun j => decide (j < 1), fun _ => true, fun _ => true, fun _ => true⟩
      (fun _ => (10, 6)) (fun _ => 0) [5, 5, 5] 1 (fun _ => rfl) (by decide)
      (fun j hj => decide_eq_true hj) (by decide)).1,
   (sort_abort_checkpoint ⟨fun j => decide (j < 1), fun _ => true, fun _ => true, fun _ => true⟩
      (fun _ => (10, 6)) (fun _ => 0) [5, 5, 5] 1 (fun _ => rfl) (by decide)
      (fun j hj => decide_eq_true hj) (by decide)).2.1,
   (sort_abort_checkpoint ⟨fun j => decide (j < 1), fun _ => true, fun _ => true, fun _ => true⟩
      (fun _ => (10, 6)) (fun _ => 0) [5, 5, 5] 1 (fun _ => rfl) (by decide)
      (fun j hj => decide_eq_true hj) (by decide)).2.2.1⟩

/-- `add_tube` never changes the configured test types or the rack dimensions. -/
lemma add_tube_static (m : TestMatrix) (tube : TubeInfo) :
    (m.add_tube tube).2.1.test_types = m.test_types
    ∧ (m.add_tube tube).2.1.rack_rows = m.rack_rows
    ∧ (m.add_tube tube).2.1.rack_cols = m.rack_cols := by
  by_cases hmem : tube.test_type ∈ m.test_types
  · by_cases hfull : m.rack_rows ≤ (m.rack_positions tube.test_type).1 <;>
      simp [TestMatrix.add_tube, hmem, hfull]
  · simp [TestMatrix.add_tube, hmem]

/-- `add_tube` never changes the tube's classification. -/
lemma add_tube_keeps_type (m : TestMatrix) (tube : TubeInfo) :
    (m.add_tube tube).2.2.test_type = tube.test_type := by
  by_cases hmem : tube.test_type ∈ m.test_types
  · by_cases hfull : m.rack_rows ≤ (m.rack_positions tube.test_type).1 <;>
      simp [TestMatrix.add_tube, hmem, hfull]
  · simp [TestMatrix.add_tube, hmem]

/-- `add_tube` only moves the cursor of the rack of the tube's own
classification. -/
lemma add_tube_pos_ne (m : TestMatrix) (tube : TubeInfo) (t : TestType)
    (h : tube.test_type ≠ t) :
    (m.add_tube tube).2.1.rack_positions t = m.rack_positions t := by
  by_cases hmem : tube.test_type ∈ m.test_types
  · by_cases hfull : m.rack_rows ≤ (m.rack_positions tube.test_type).1
    · simp [TestMatrix.add_tube, hmem, hfull]
    · simp [TestMatrix.add_tube, hmem, hfull, Ne.symm h]
  · simp [TestMatrix.add_tube, hmem]

/-- A tube whose rack is full is rejected with the state untouched (also when
its classification is not configured at all). -/
lemma add_tube_full_reject (m : TestMatrix) (tube : TubeInfo)
    (hfull : m.rack_rows ≤ (m.rack_positions tube.test_type).1) :
    m.add_tube tube = (false, m, tube) := by
  by_cases hmem : tube.test_type ∈ m.test_types
  · simp [TestMatrix.add_tube, hmem, hfull]
  · simp [TestMatrix.add_tube, hmem]

/-- Once a rack is full, any further sequence of `add_tube` calls accepts no
tube of that classification and leaves that rack's cursor (and the rack
dimensions) untouched. -/
lemma runAdds_full_persists :
    ∀ (inputs : List TubeInfo) (m : TestMatrix) (t : TestType),
    m.rack_rows ≤ (m.rack_positions t).1 →
    (runAdds m inputs).2.filter (fun x => decide (x.test_type = t)) = []
    ∧ (runAdds m inputs).1.rack_positions t = m.rack_positions t
    ∧ (runAdds m inputs).1.rack_rows = m.rack_rows := by
  intro inputs
  induction inputs with
  | nil => intro m t hfull; simp [runAdds]
  | cons x xs ih =>
    intro m t hfull
    by_cases hx : x.test_type = t
    · have hfull' : m.rack_rows ≤ (m.rack_positions x.test_type).1 := by rwa [hx]
      have hrej := add_tube_full_reject m x hfull'
      have hrec := ih m t hfull
      simp only [runAdds, hrej]
      simpa using hrec
    · have hstat := add_tube_static m x
      have hpos := add_tube_pos_ne m x t hx
      have hfull' : (m.add_tube x).2.1.rack_rows
          ≤ ((m.add_tube x).2.1.rack_positions t).1 := by
        rw [hstat.2.1, hpos]
        exact hfull
      have hrec := ih (m.add_tube x).2.1 t hfull'
      have htype := add_tube_keeps_type m x
      refine ⟨?_, ?_, ?_⟩
      · simp only [runAdds, List.filter_append]
        rw [hrec.1]
        cases hacc : (m.add_tube x).1
        · simp
        · have : decide ((m.add_tube x).2.2.test_type = t) = false := by
            rw [htype]
            exact decide_eq_false hx
          simp [this]
      · simp only [runAdds]
        rw [hrec.2.1, hpos]
      · simp only [runAdds]
        rw [hrec.2.2, hstat.2.1]

/-- An all-`none` rack row contains no occupied cell. -/
lemma countP_none_replicate (n : Nat) :
    (List.replicate n (none : Option TubeInfo)).countP (fun c => c.isSome) = 0 := by
  induction n with
  | zero => simp
  | succ n ih => simp [List.replicate_succ, List.countP_cons, ih]

/-- C7: `add_tube` rejects a tube as unsupported when no rack exists for its
classification and as full when the cursor's row has reached `rack_rows`, in
both cases leaving the matrix untouched (no expansion, no overflow into another
rack); once a rack is full, every later `add_tube` of that classification
fails — over any further call sequence no such tube is accepted and the cursor
stays put — until the explicit (spec-modelled) `reset_rack`, after which the
cursor is exactly `(0, 0)` and the fill count is `0`. -/
theorem allocator_full_and_reset (m : TestMatrix) (tube : TubeInfo) (t : TestType)
    (inputs : List TubeInfo) :
    (tube.test_type ∉ m.test_types → m.add_tube tube = (false, m, tube))
    ∧ (tube.test_type ∈ m.test_types →
        m.rack_rows ≤ (m.rack_positions tube.test_type).1 →
        m.add_tube tube = (false, m, tube))
    ∧ (m.rack_rows ≤ (m.rack_positions t).1 →
        ((runAdds m inputs).2.filter (fun x => decide (x.test_type = t)) = []
          ∧ (runAdds m inputs).1.rack_positions t = m.rack_positions t))
    ∧ ((m.reset_rack t).rack_positions t = (0, 0)
        ∧ rackFillCount (m.reset_rack t) t = 0) := by
  refine ⟨?_, ?_, ?_, ?_, ?_⟩
  · intro hmem
    simp [TestMatrix.add_tube, hmem]
  · intro hmem hfull
    simp [TestMatrix.add_tube, hmem, hfull]
  · intro hfull
    exact ⟨(runAdds_full_persists inputs m t hfull).1,
      (runAdds_full_persists inputs m t hfull).2.1⟩
  · simp [TestMatrix.reset_rack]
  · simp [rackFillCount, TestMatrix.reset_rack, List.map_replicate,
      countP_none_replicate, List.sum_replicate]

theorem allocator_full_and_reset_witness :
    ((runAdds (TestMatrix.init [TestType.UGI, TestType.VPCH] 1 1)
        [{ barcode := "u", row := 0, col := 0, test_type := TestType.UGI }]).1.add_tube
      { barcode := "v", row := 0, col := 1, test_type := TestType.UGI }).1 = false
    ∧ (((TestMatrix.init [TestType.UGI, TestType.VPCH] 1 1).reset_rack
        TestType.UGI).rack_positions TestType.UGI = (0, 0)
      ∧ rackFillCount ((TestMatrix.init [TestType.UGI, TestType.VPCH] 1 1).reset_rack
          TestType.UGI) TestType.UGI = 0) := by
  constructor
  · rw [(allocator_full_and_reset
      (runAdds (TestMatrix.init [TestType.UGI, TestType.VPCH] 1 1)
        [{ barcode := "u", row := 0, col := 0, test_type := TestType.UGI }]).1
      { barcode := "v", row := 0, col := 1, test_type := TestType.UGI }
      TestType.UGI []).2.1 (by decide) (by decide)]
  · exact (allocator_full_and_reset (TestMatrix.init [TestType.UGI, TestType.VPCH] 1 1)
      { barcode := "v", row := 0, col := 1, test_type := TestType.UGI }
      TestType.UGI []).2.2.2

/-- In one list, two members with the same first-occurrence index are equal. -/
lemma listIndex_inj : ∀ (l : List TestType) (a b : TestType), a ∈ l → b ∈ l →
    listIndex a l = listIndex b l → a = b := by
  intro l
  induction l with
  | nil => intro a b ha; simp at ha
  | cons x xs ih =>
    intro a b ha hb hidx
    by_cases hxa : x = a
    · by_cases hxb : x = b
      · rw [← hxa, ← hxb]
      · rw [listIndex, listIndex, if_pos hxa, if_neg hxb] at hidx
        cases hidx
    · by_cases hxb : x = b
      · rw [listIndex, listIndex, if_pos hxb, if_neg hxa] at hidx
        cases hidx
      · rw [listIndex, listIndex, if_neg hxa, if_neg hxb] at hidx
        have ha' : a ∈ xs := by
          cases ha with
          | head => exact absurd rfl hxa
          | tail _ h => exact h
        have hb' : b ∈ xs := by
          cases hb with
          | head => exact absurd rfl hxb
          | tail _ h => exact h
        exact ih a b ha' hb' (by omega)

/-- Advancing the row-major cursor (`col + 1`, wrapping to the next row at
`cols`) from the position encoding `n` yields the position encoding `n + 1`. -/
lemma rowMajorSucc (cols n : Nat) (hc : 0 < cols) :
    (if cols ≤ n % cols + 1 then (n / cols + 1, 0) else (n / cols, n % cols + 1))
      = ((n + 1) / cols, (n + 1) % cols) := by
  have hdm := Nat.div_add_mod n cols
  have hlt : n % cols < cols := Nat.mod_lt _ hc
  by_cases h : cols ≤ n % cols + 1
  · have h1 : n + 1 = cols * (n / cols + 1) := by
      have he : n % cols + 1 = cols := by omega
      calc n + 1 = cols * (n / cols) + (n % cols + 1) := by omega
        _ = cols * (n / cols) + cols := by rw [he]
        _ = cols * (n / cols + 1) := by ring
    rw [if_pos h, h1, Nat.mul_div_cancel_left _ hc, Nat.mul_mod_right]
  · have hlt2 : n % cols + 1 < cols := by omega
    have h1 : n + 1 = cols * (n / cols) + (n % cols + 1) := by omega
    rw [if_neg h, h1, Nat.mul_add_div hc, Nat.mul_add_mod,
      Nat.div_eq_of_lt hlt2, Nat.mod_eq_of_lt hlt2]
    simp

/-- Appending one tube changes the per-type count by one exactly for its own
classification. -/
lemma cntType_append_one (t : TestType) (acc : List TubeInfo) (x : TubeInfo) :
    cntType t (acc ++ [x]) = cntType t acc + (if x.test_type = t then 1 else 0) := by
  by_cases h : x.test_type = t <;> simp [cntType, List.filter_append, h]

/-- The invariant tying an allocator state to the list of tubes it accepted so
far (in acceptance order): the static configuration is unchanged; each
configured rack's cursor is the row-major encoding of its count of accepted
tubes (never beyond capacity); every accepted tube is destined for the rack
indexed by its classification's position in the configuration; per rack, the
accepted tubes' destination cells are exactly the row-major sequence in
acceptance order; and no destination triple repeats. -/
def AllocGood (ts : List TestType) (rows cols : Nat) (m : TestMatrix)
    (acc : List TubeInfo) : Prop :=
  m.test_types = ts ∧ m.rack_rows = rows ∧ m.rack_cols = cols
  ∧ (∀ t, t ∈ ts → m.rack_positions t = (cntType t acc / cols, cntType t acc % cols)
        ∧ cntType t acc ≤ rows * cols)
  ∧ (∀ x, x ∈ acc → x.test_type ∈ ts
        ∧ x.destination_rack = some (listIndex x.test_type ts))
  ∧ (∀ t, t ∈ ts → (acc.filter (fun x => decide (x.test_type = t))).map destRC
        = (List.range (cntType t acc)).map (fun i => (some (i / cols), some (i % cols))))
  ∧ (acc.map destTriple).Nodup

/-- A freshly initialised matrix satisfies the invariant with no accepted
tubes. -/
lemma allocGood_initial (ts : List TestType) (rows cols : Nat) :
    AllocGood ts rows cols (TestMatrix.init ts rows cols) [] := by
  refine ⟨rfl, rfl, rfl, ?_, ?_, ?_, ?_⟩
  · intro t _
    simp [TestMatrix.init, cntType]
  · intro x hx
    simp at hx
  · intro t _
    simp [cntType]
  · simp

/-- One `add_tube` call preserves the allocator invariant, extending the
accepted list exactly when the call accepts. -/
lemma allocGood_step (ts : List TestType) (rows cols : Nat) (hc : 0 < cols)
    (m : TestMatrix) (acc : List TubeInfo) (tube : TubeInfo)
    (hG : AllocGood ts rows cols m acc) :
    AllocGood ts rows cols (m.add_tube tube).2.1
      (acc ++ (if (m.add_tube tube).1 then [(m.add_tube tube).2.2] else [])) := by
  obtain ⟨hts, hrr, hrc, hposall, hdest, hfilt, hnodup⟩ := hG
  by_cases hmem : tube.test_type ∈ ts
  · have hmem' : tube.test_type ∈ m.test_types := by rw [hts]; exact hmem
    obtain ⟨hpos, hcnt⟩ := hposall tube.test_type hmem
    by_cases hfull : rows ≤ cntType tube.test_type acc / cols
    · have hfull' : m.rack_rows ≤ (m.rack_positions tube.test_type).1 := by
        rw [hrr, hpos]
        exact hfull
      have hrej := add_tube_full_reject m tube hfull'
      rw [hrej]
      simp only [Bool.false_eq_true, if_false, List.append_nil]
      exact ⟨hts, hrr, hrc, hposall, hdest, hfilt, hnodup⟩
    · have hnotfull : ¬ m.rack_rows ≤ (m.rack_positions tube.test_type).1 := by
        rw [hrr, hpos]
        exact hfull
      have hcap : cntType tube.test_type acc < rows * cols :=
        (Nat.div_lt_iff_lt_mul hc).mp (by omega)
      have hfst : (m.add_tube tube).1 = true := by
        simp [TestMatrix.add_tube, hmem', hnotfull]
      have htube2 : (m.add_tube tube).2.2 = { tube with
          destination_rack := some (listIndex tube.test_type ts)
          destination_row := some (cntType tube.test_type acc / cols)
          destination_col := some (cntType tube.test_type acc % cols) } := by
        simp [TestMatrix.add_tube, hmem, hmem', hnotfull, hfull, hpos, hts, hrr]
      have hposs : ∀ s, (m.add_tube tube).2.1.rack_positions s
          = if s = tube.test_type
            then ((cntType tube.test_type acc + 1) / cols,
                  (cntType tube.test_type acc + 1) % cols)
            else m.rack_positions s := by
        intro s
        by_cases hs : s = tube.test_type
        · rw [if_pos hs]
          have : (m.add_tube tube).2.1.rack_positions s
              = (if m.rack_cols ≤ (m.rack_positions tube.test_type).2 + 1
                  then ((m.rack_positions tube.test_type).1 + 1, 0)
                  else ((m.rack_positions tube.test_type).1,
                        (m.rack_positions tube.test_type).2 + 1)) := by
            simp [TestMatrix.add_tube, hmem', hnotfull, hs]
          rw [this, hpos, hrc]
          exact rowMajorSucc cols (cntType tube.test_type acc) hc
        · rw [if_neg hs]
          simp [TestMatrix.add_tube, hmem', hnotfull, hs]
      have hstat := add_tube_static m tube
      rw [hfst]
      simp only [if_true]
      rw [htube2]
      have htbtype : ({ tube with
          destination_rack := some (listIndex tube.test_type ts)
          destination_row := some (cntType tube.test_type acc / cols)
          destination_col := some (cntType tube.test_type acc % cols) } : TubeInfo).test_type
          = tube.test_type := rfl
      refine ⟨by rw [hstat.1, hts], by rw [hstat.2.1, hrr], by rw [hstat.2.2, hrc],
        ?_, ?_, ?_, ?_⟩
      · intro t ht
        by_cases hteq : t = tube.test_type
        · rw [hteq]
          have hcnt' : cntType tube.test_type (acc ++ [{ tube with
              destination_rack := some (listIndex tube.test_type ts)
              destination_row := some (cntType tube.test_type acc / cols)
              destination_col := some (cntType tube.test_type acc % cols) }]) = cntType tube.test_type acc + 1 := by
            rw [cntType_append_one, htbtype]
            simp
          rw [hcnt', hposs tube.test_type, if_pos rfl]
          exact ⟨rfl, by omega⟩
        · have hne : ¬ (tube.test_type = t) := fun h => hteq h.symm
          have hcnt' : cntType t (acc ++ [{ tube with
              destination_rack := some (listIndex tube.test_type ts)
              destination_row := some (cntType tube.test_type acc / cols)
              destination_col := some (cntType tube.test_type acc % cols) }]) = cntType t acc := by
            rw [cntType_append_one, htbtype]
            simp [hne]
          rw [hcnt', hposs t, if_neg hteq]
          exact hposall t ht
      · intro x hx
        rcases List.mem_append.mp hx with hx | hx
        · exact hdest x hx
        · have hx' : x = { tube with
              destination_rack := some (listIndex tube.test_type ts)
              destination_row := some (cntType tube.test_type acc / cols)
              destination_col := some (cntType tube.test_type acc % cols) } := by
            simpa using hx
          subst hx'
          exact ⟨hmem, rfl⟩
      · intro t ht
        by_cases hteq : t = tube.test_type
        · rw [hteq]
          have hcnt' : cntType tube.test_type (acc ++ [{ tube with
              destination_rack := some (listIndex tube.test_type ts)
              destination_row := some (cntType tube.test_type acc / cols)
              destination_col := some (cntType tube.test_type acc % cols) }]) = cntType tube.test_type acc + 1 := by
            rw [cntType_append_one, htbtype]
            simp
          rw [hcnt']
          rw [List.filter_append]
          have hsing : List.filter (fun x => decide (x.test_type = tube.test_type))
              [({ tube with
              destination_rack := some (listIndex tube.test_type ts)
              destination_row := some (cntType tube.test_type acc / cols)
              destination_col := some (cntType tube.test_type acc % cols) } : TubeInfo)]
              = [{ tube with
              destination_rack := some (listIndex tube.test_type ts)
              destination_row := some (cntType tube.test_type acc / cols)
              destination_col := some (cntType tube.test_type acc % cols) }] := by
            simp
          rw [hsing, List.map_append, hfilt tube.test_type hmem]
          have hrange : List.range (cntType tube.test_type acc + 1)
              = List.range (cntType tube.test_type acc) ++ [cntType tube.test_type acc] := by
            rw [List.range_succ]
          rw [hrange, List.map_append]
          rfl
        · have hne : ¬ (tube.test_type = t) := fun h => hteq h.symm
          have hcnt' : cntType t (acc ++ [{ tube with
              destination_rack := some (listIndex tube.test_type ts)
              destination_row := some (cntType tube.test_type acc / cols)
              destination_col := some (cntType tube.test_type acc % cols) }]) = cntType t acc := by
            rw [cntType_append_one, htbtype]
            simp [hne]
          rw [hcnt', List.filter_append]
          have hsing : List.filter (fun x => decide (x.test_type = t))
              [({ tube with
                  destination_rack := some (listIndex tube.test_type ts)
                  destination_row := some (cntType tube.test_type acc / cols)
                  destination_col := some (cntType tube.test_type acc % cols) } : TubeInfo)]
              = [] := by
            simp [hne]
          rw [hsing, List.append_nil]
          exact hfilt t ht
      · rw [List.map_append]
        have hnotin : destTriple { tube with
            destination_rack := some (listIndex tube.test_type ts)
            destination_row := some (cntType tube.test_type acc / cols)
            destination_col := some (cntType tube.test_type acc % cols) }
            ∉ acc.map destTriple := by
          intro hmem2
          obtain ⟨x, hxacc, htrip⟩ := List.mem_map.mp hmem2
          obtain ⟨hxts, hxrack⟩ := hdest x hxacc
          have htrip' : x.destination_rack = some (listIndex tube.test_type ts)
              ∧ x.destination_row = some (cntType tube.test_type acc / cols)
              ∧ x.destination_col = some (cntType tube.test_type acc % cols) := by
            simpa [destTriple] using htrip
          have hxt : x.test_type = tube.test_type := by
            apply listIndex_inj ts _ _ hxts hmem
            have := hxrack.symm.trans htrip'.1
            simpa using this
          have hxfilt : x ∈ acc.filter (fun y => decide (y.test_type = tube.test_type)) :=
            List.mem_filter.mpr ⟨hxacc, decide_eq_true hxt⟩
          have hxmap : destRC x ∈ (acc.filter
              (fun y => decide (y.test_type = tube.test_type))).map destRC :=
            List.mem_map_of_mem destRC hxfilt
          rw [hfilt tube.test_type hmem] at hxmap
          obtain ⟨i, hi, hfi⟩ := List.mem_map.mp hxmap
          have hi' : i < cntType tube.test_type acc := List.mem_range.mp hi
          have hfi' : some (i / cols) = x.destination_row
              ∧ some (i % cols) = x.destination_col := by
            simpa [destRC] using hfi
          have hdiv : i / cols = cntType tube.test_type acc / cols := by
            have := hfi'.1.trans htrip'.2.1
            simpa using this
          have hmod : i % cols = cntType tube.test_type acc % cols := by
            have := hfi'.2.trans htrip'.2.2
            simpa using this
          have d1 := Nat.div_add_mod i cols
          have d2 := Nat.div_add_mod (cntType tube.test_type acc) cols
          rw [hdiv, hmod] at d1
          omega
        simp [List.nodup_append, hnodup, hnotin]
  · have hmem' : tube.test_type ∉ m.test_types := by rw [hts]; exact hmem
    have hrej : m.add_tube tube = (false, m, tube) := by
      simp [TestMatrix.add_tube, hmem']
    rw [hrej]
    simp only [Bool.false_eq_true, if_false, List.append_nil]
    exact ⟨hts, hrr, hrc, hposall, hdest, hfilt, hnodup⟩

/-- The allocator invariant is preserved across any sequence of `add_tube`
calls. -/
lemma allocGood_run (ts : List TestType) (rows cols : Nat) (hc : 0 < cols) :
    ∀ (inputs : List TubeInfo) (m : TestMatrix) (acc : List TubeInfo),
    AllocGood ts rows cols m acc →
    AllocGood ts rows cols (runAdds m inputs).1 (acc ++ (runAdds m inputs).2) := by
  intro inputs
  induction inputs with
  | nil => intro m acc hG; simpa [runAdds] using hG
  | cons x xs ih =>
    intro m acc hG
    have hstep := allocGood_step ts rows cols hc m acc x hG
    have hrec := ih (m.add_tube x).2.1 _ hstep
    simp only [runAdds]
    rw [← List.append_assoc]
    exact hrec

/-- C1: over any sequence of `add_tube` calls on a validly configured
`TestMatrix` (2 to 6 test types, `rows × cols` racks with `cols > 0`), the
accepted tubes of each destination rack occupy, in exactly the order of the
accepting calls, the strict row-major cell sequence
`(0,0), (0,1), ..., (0,cols-1), (1,0), ...`, and no two accepted tubes receive
the same `(destination_rack, destination_row, destination_col)` triple. -/
theorem allocator_row_major_unique (ts : List TestType) (rows cols : Nat)
    (m0 : TestMatrix) (inputs : List TubeInfo)
    (hinit : TestMatrix.mkChecked ts rows cols = some m0) (hc : 0 < cols) :
    (∀ k : Nat,
      (((runAdds m0 inputs).2.filter
          (fun x => decide (x.destination_rack = some k))).map destRC)
        = (List.range ((runAdds m0 inputs).2.filter
            (fun x => decide (x.destination_rack = some k))).length).map
            (fun i => (some (i / cols), some (i % cols))))
    ∧ List.Pairwise (fun a b => destTriple a ≠ destTriple b) (runAdds m0 inputs).2 := by
  have hm0 : m0 = TestMatrix.init ts rows cols := by
    by_cases hv : 2 ≤ ts.length ∧ ts.length ≤ 6
    · rw [TestMatrix.mkChecked, if_pos hv] at hinit
      injection hinit with h
      exact h.symm
    · rw [TestMatrix.mkChecked, if_neg hv] at hinit
      cases hinit
  subst hm0
  have hG := allocGood_run ts rows cols hc inputs (TestMatrix.init ts rows cols) []
    (allocGood_initial ts rows cols)
  rw [List.nil_append] at hG
  obtain ⟨hts, hrr, hrc, hposall, hdest, hfilt, hnodup⟩ := hG
  constructor
  · intro k
    by_cases hex : ∃ t, t ∈ ts ∧ listIndex t ts = k
    · obtain ⟨t, ht, hk⟩ := hex
      have hfe : (runAdds (TestMatrix.init ts rows cols) inputs).2.filter
            (fun x => decide (x.destination_rack = some k))
          = (runAdds (TestMatrix.init ts rows cols) inputs).2.filter
            (fun x => decide (x.test_type = t)) := by
        apply List.filter_congr
        intro x hx
        obtain ⟨hxts, hxrack⟩ := hdest x hx
        apply decide_eq_decide.mpr
        constructor
        · intro hr
          rw [hxrack] at hr
          have hidx : listIndex x.test_type ts = k := by simpa using hr
          exact listIndex_inj ts x.test_type t hxts ht (by rw [hidx, hk])
        · intro hxt
          rw [hxrack, hxt, hk]
      rw [hfe]
      exact hfilt t ht
    · have hfe : (runAdds (TestMatrix.init ts rows cols) inputs).2.filter
          (fun x => decide (x.destination_rack = some k)) = [] := by
        apply List.filter_eq_nil_iff.mpr
        intro x hx
        obtain ⟨hxts, hxrack⟩ := hdest x hx
        simp only [decide_eq_true_eq]
        intro hr
        rw [hxrack] at hr
        exact hex ⟨x.test_type, hxts, by simpa using hr⟩
      rw [hfe]
      simp
  · exact List.pairwise_map.mp hnodup

theorem allocator_row_major_unique_witness :
    List.Pairwise (fun a b => destTriple a ≠ destTriple b)
      (runAdds (TestMatrix.init [TestType.UGI, TestType.VPCH] 2 2)
        [{ barcode := "a", row := 0, col := 0, test_type := TestType.UGI },
         { barcode := "b", row := 0, col := 1, test_type := TestType.VPCH },
         { barcode := "c", row := 0, col := 2, test_type := TestType.UGI }]).2 :=
  (allocator_row_major_unique [TestType.UGI, TestType.VPCH] 2 2
    (TestMatrix.init [TestType.UGI, TestType.VPCH] 2 2)
    [{ barcode := "a", row := 0, col := 0, test_type := TestType.UGI },
     { barcode := "b", row := 0, col := 1, test_type := TestType.VPCH },
     { barcode := "c", row := 0, col := 2, test_type := TestType.UGI }]
    rfl (by decide)).2

end Roboarm
